import Mathlib

/-!
# Verification of the node-nagios SNMP trap handler and statistics pipeline

Shallow embedding of `src/lib/traphandler.js` (the full variant with
enrichment: `parseVarbinds`, `translateTrapVarbind`, `varbindByKey`,
`getAdditionalInfo`, `submitCheckResult`, `printVarBinds`) and of the
rate calculator of the statistics pipeline. JavaScript strings are
modelled as `List Char`; the character-indexed `for` loop of
`parseVarbinds` becomes structural recursion over that list, threading
the loop state (`bufferKey`, `bufferValue`, `inValue`, `inString`)
explicitly. JavaScript member access on a possibly-`undefined` value
(which raises a `TypeError` at runtime) is modelled with `Except`.
-/

namespace NodeNagios

/-- A varbind, mirroring the JS object literal `{ key : ..., value : ... }`
built in `parseVarbinds`. -/
structure Varbind where
  key : List Char
  value : List Char
deriving DecidableEq, Repr

/-- The scanning loop of `parseVarbinds` (traphandler.js lines 176-201).
Arguments mirror the loop state: `bufferKey`, `bufferValue`, `inValue`,
`inString`; the remaining input stands for the buffer from `bufferPointer`
on. The JS code pushes each completed pair onto `pairs`; here the emitted
pairs are produced in the same order as the head of the result list. -/
def parseLoop (bufferKey bufferValue : List Char) (inValue inString : Bool) :
    List Char → List Varbind
  | [] => []
  | c :: rest =>
    if c = '"' then
      parseLoop bufferKey bufferValue inValue (!inString) rest
    else if c = '\n' ∧ inString = false then
      { key := bufferKey, value := bufferValue } ::
        parseLoop [] [] false inString rest
    else if c = ' ' ∧ inValue = false then
      parseLoop bufferKey bufferValue true inString rest
    else if inValue then
      parseLoop bufferKey (bufferValue ++ [c]) inValue inString rest
    else
      parseLoop (bufferKey ++ [c]) bufferValue inValue inString rest

/-- `parseVarbinds` (traphandler.js lines 167-204): scan the buffer from
the initial state (empty key and value buffers, `inValue = false`,
`inString = false`). -/
def parseVarbinds (buffer : List Char) : List Varbind :=
  parseLoop [] [] false false buffer

/-- The key-rewriting chain of `translateTrapVarbind` (traphandler.js
lines 207-223). The JS test `0 === varbind.key.indexOf( p )` holds
exactly when `p` is a prefix of the key. -/
def translateKey (key : List Char) : List Char :=
  if List.isPrefixOf ".1.3.6.1.2.1.1.3.0".toList key then "UP for".toList
  else if List.isPrefixOf ".1.3.6.1.6.3.1.1.4.1.0".toList key then "Type".toList
  else if List.isPrefixOf ".1.3.6.1.2.1.2.2.1.1.".toList key then "Interface#".toList
  else if List.isPrefixOf ".1.3.6.1.2.1.2.2.1.7.".toList key then "Administrative".toList
  else if List.isPrefixOf ".1.3.6.1.2.1.2.2.1.8.".toList key then "Operational".toList
  else if List.isPrefixOf ".1.3.6.1.6.3.18.1.3.0".toList key then "Address".toList
  else if List.isPrefixOf ".1.3.6.1.6.3.18.1.4.0".toList key then "Community".toList
  else if List.isPrefixOf ".1.3.6.1.6.3.1.1.4.3.0".toList key then "Enterprise".toList
  else key

/-- The value-rewriting chain of `translateTrapVarbind` (traphandler.js
lines 225-235). -/
def translateValue (value : List Char) : List Char :=
  if List.isPrefixOf ".1.3.6.1.6.3.1.1.5.1".toList value then "coldStart".toList
  else if List.isPrefixOf ".1.3.6.1.6.3.1.1.5.2".toList value then "warmStart".toList
  else if List.isPrefixOf ".1.3.6.1.6.3.1.1.5.3".toList value then "linkDown".toList
  else if List.isPrefixOf ".1.3.6.1.6.3.1.1.5.4".toList value then "linkUp".toList
  else if List.isPrefixOf ".1.3.6.1.6.3.1.1.5.5".toList value then "authenticationFailure".toList
  else value

/-- `translateTrapVarbind` (traphandler.js lines 206-237): rewrite the key
by the key chain and the value by the value chain; the two chains are
independent in the source. -/
def translateTrapVarbind (varbind : Varbind) : Varbind :=
  { key := translateKey varbind.key, value := translateValue varbind.value }

/-- `varbindByKey` (traphandler.js lines 272-276):
`varbinds.filter( v => v.key === key )[ 0 ]`; indexing an empty filter
result yields `undefined`, modelled as `none`. -/
def varbindByKey (varbinds : List Varbind) (key : List Char) : Option Varbind :=
  (varbinds.filter fun varbind => varbind.key = key).head?

/-- `OID_NIC_NAMES` (traphandler.js line 57). -/
def OID_NIC_NAMES : List Char := "1.3.6.1.2.1.2.2.1.2".toList

/-- `getAdditionalInfo` (traphandler.js lines 249-270). The remote SNMP
collaborator (`snmp.createSession` followed by `session.get`) is a
parameter `snmpGet` taking the address, the community and the requested
OID and returning either an error (the JS path that calls
`reject( error )`) or the resolved name (the JS
`nameVarbinds[ 0 ].value.toString()`). When any of the three varbinds is
missing the JS code resolves with the list unchanged before any session
is created. -/
def getAdditionalInfo {ε : Type} (snmpGet : List Char → List Char → List Char → Except ε (List Char))
    (varbinds : List Varbind) : Except ε (List Varbind) :=
  match varbindByKey varbinds "Address".toList, varbindByKey varbinds "Community".toList,
      varbindByKey varbinds "Interface#".toList with
  | some varbindAddress, some varbindCommunity, some varbindInterface =>
    match snmpGet varbindAddress.value varbindCommunity.value
        (OID_NIC_NAMES ++ '.' :: varbindInterface.value) with
    | Except.error e => Except.error e
    | Except.ok name => Except.ok (varbinds ++ [{ key := "Interface".toList, value := name }])
  | _, _, _ => Except.ok varbinds

/-- The JS runtime error raised by accessing a property of `undefined`. -/
inductive JsError where
  | typeError
deriving DecidableEq, Repr

/-- The host extraction of `submitCheckResult` (traphandler.js line 141):
`hostname.substr( 0, hostname.indexOf( "." ) )`. When no dot occurs,
`indexOf` is `-1` and `substr( 0, -1 )` is the empty string. -/
def hostOf (hostname : List Char) : List Char :=
  if hostname.contains '.' then hostname.takeWhile (fun c => c ≠ '.') else []

/-- The outcome of a successful `submitCheckResult` run: the arguments of
the spawned `submit_check_result` process, or nothing when the trap type
matches neither `linkDown` nor `linkUp` (the `default` branch returns
without spawning). -/
structure CheckResult where
  host : List Char
  service : List Char
  state : Nat
  pluginOutput : List Char
deriving DecidableEq, Repr

/-- `submitCheckResult` (traphandler.js lines 140-165). The JS code reads
`varbindByKey( varbinds, "Type" ).value` unconditionally, which raises a
`TypeError` when no `Type` varbind exists; likewise
`varbindByKey( varbinds, "Interface" ).value` in the `linkDown` and
`linkUp` branches. -/
def submitCheckResult (hostname : List Char) (varbinds : List Varbind) :
    Except JsError (Option CheckResult) :=
  match varbindByKey varbinds "Type".toList with
  | none => Except.error JsError.typeError
  | some varbindType =>
    if varbindType.value = "linkDown".toList then
      match varbindByKey varbinds "Interface".toList with
      | none => Except.error JsError.typeError
      | some varbindInterface =>
        Except.ok (some ⟨hostOf hostname, varbindInterface.value, 2,
          varbindInterface.value ++ ' ' :: varbindType.value⟩)
    else if varbindType.value = "linkUp".toList then
      match varbindByKey varbinds "Interface".toList with
      | none => Except.error JsError.typeError
      | some varbindInterface =>
        Except.ok (some ⟨hostOf hostname, varbindInterface.value, 0,
          varbindInterface.value ++ ' ' :: varbindType.value⟩)
    else
      Except.ok none

/-- The key-width computation of `printVarBinds` (traphandler.js lines
240-242): `reduce` with initial value 0 of `Math.max( key.length, acc )`. -/
def maxKeyLength (varbinds : List Varbind) : Nat :=
  varbinds.foldl (fun previous current => max current.key.length previous) 0

/-- The text produced by `printVarBinds` (traphandler.js lines 239-247):
one line per varbind, the key padded to the maximal key width
(`new Array( max - len + 1 ).join( " " )` is `max - len` spaces), then
`": "`, the value and a newline. -/
def formatVarbinds (varbinds : List Varbind) : List Char :=
  (varbinds.map fun varbind =>
    varbind.key ++ List.replicate (maxKeyLength varbinds - varbind.key.length) ' ' ++
      ':' :: ' ' :: varbind.value ++ ['\n']).flatten

/-- The trap pipeline on the trap body: tokenize (`parseVarbinds`),
translate (`translateTrapVarbind` over each varbind, as the in-place
mutation on line 122 does), format (`printVarBinds`), then decide on
submission (`submitCheckResult`). A successful run yields the formatted
report together with the optional spawned check result. -/
def trapPipeline (hostname trapBody : List Char) :
    Except JsError (List Char × Option CheckResult) :=
  match submitCheckResult hostname ((parseVarbinds trapBody).map translateTrapVarbind) with
  | Except.error e => Except.error e
  | Except.ok result =>
    Except.ok (formatVarbinds ((parseVarbinds trapBody).map translateTrapVarbind), result)

/-- Modelled from the spec: the rate calculator of the statistics
pipeline. It is absent from `src` — `src/unnamed/part_000` only resolves
the interface and retrieves the octet counters — so spec section 4.4 is
the authority: `rate = max(0, raw delta / elapsed seconds)` with
`raw delta = current counter − previous counter`. Counters are naturals,
the elapsed time and the rate are rationals. -/
def computeRate (current previous : Nat) (elapsedSeconds : ℚ) : ℚ :=
  max 0 ((((current : ℤ) - (previous : ℤ) : ℤ) : ℚ) / elapsedSeconds)

/-- Modelled from the spec: stripping control characters from the
resolved interface name, as claimed by spec section 4.3 for the varbind
appended by the enrichment step (the source itself performs no such
stripping). -/
def stripControlChars (s : List Char) : List Char :=
  s.filter fun c => ¬ c.toNat < 32

/-- Specification-side reconstruction used by the round-trip property:
for each pair, its key, a single space, its value and a newline,
concatenated in order. -/
def specReconstruct (pairs : List Varbind) : List Char :=
  (pairs.map fun pair => pair.key ++ ' ' :: pair.value ++ ['\n']).flatten

/-- Specification-side well-formedness of one `key value\n` line: the key
is non-empty and free of spaces, double quotes and newlines, and the
value is free of double quotes and newlines. -/
@[reducible] def wellFormedPair (pair : Varbind) : Prop :=
  pair.key ≠ [] ∧ (∀ c ∈ pair.key, c ≠ ' ' ∧ c ≠ '"' ∧ c ≠ '\n') ∧
    (∀ c ∈ pair.value, c ≠ '"' ∧ c ≠ '\n')

/-- Specification-side count of the newline characters consumed outside
quoted mode: quotes toggle the mode, a newline is counted only while the
mode is off. -/
def specUnquotedNewlineCount (inString : Bool) : List Char → Nat
  | [] => 0
  | c :: rest =>
    if c = '"' then specUnquotedNewlineCount (!inString) rest
    else if c = '\n' ∧ inString = false then specUnquotedNewlineCount inString rest + 1
    else specUnquotedNewlineCount inString rest

/-- The eight key-side OID prefixes of `translateTrapVarbind`, in source
order. -/
def keyRuleOids : List (List Char) :=
  [".1.3.6.1.2.1.1.3.0".toList, ".1.3.6.1.6.3.1.1.4.1.0".toList,
   ".1.3.6.1.2.1.2.2.1.1.".toList, ".1.3.6.1.2.1.2.2.1.7.".toList,
   ".1.3.6.1.2.1.2.2.1.8.".toList, ".1.3.6.1.6.3.18.1.3.0".toList,
   ".1.3.6.1.6.3.18.1.4.0".toList, ".1.3.6.1.6.3.1.1.4.3.0".toList]

/-- The five value-side OID prefixes of `translateTrapVarbind`, in source
order. -/
def valueRuleOids : List (List Char) :=
  [".1.3.6.1.6.3.1.1.5.1".toList, ".1.3.6.1.6.3.1.1.5.2".toList,
   ".1.3.6.1.6.3.1.1.5.3".toList, ".1.3.6.1.6.3.1.1.5.4".toList,
   ".1.3.6.1.6.3.1.1.5.5".toList]

/-- The semantic key labels `translateTrapVarbind` can produce. -/
def keyLabels : List (List Char) :=
  ["UP for".toList, "Type".toList, "Interface#".toList, "Administrative".toList,
   "Operational".toList, "Address".toList, "Community".toList, "Enterprise".toList]

/-- The enumerated trap-type labels `translateTrapVarbind` can produce. -/
def valueLabels : List (List Char) :=
  ["coldStart".toList, "warmStart".toList, "linkDown".toList, "linkUp".toList,
   "authenticationFailure".toList]

/-! ## Step equations of the scanning loop -/

theorem parseLoop_quote (key val : List Char) (inV inS : Bool) (rest : List Char) :
    parseLoop key val inV inS ('"' :: rest) = parseLoop key val inV (!inS) rest := by
  simp [parseLoop]

theorem parseLoop_newline (key val : List Char) (inV : Bool) (rest : List Char) :
    parseLoop key val inV false ('\n' :: rest) =
      { key := key, value := val } :: parseLoop [] [] false false rest := by
  simp [parseLoop]

theorem parseLoop_space (key val : List Char) (inS : Bool) (rest : List Char) :
    parseLoop key val false inS (' ' :: rest) = parseLoop key val true inS rest := by
  simp [parseLoop]

theorem parseLoop_append_val (c : Char) (key val : List Char) (inS : Bool) (rest : List Char)
    (h1 : c ≠ '"') (h2 : c = '\n' → inS = true) :
    parseLoop key val true inS (c :: rest) = parseLoop key (val ++ [c]) true inS rest := by
  have h2' : ¬(c = '\n' ∧ inS = false) := by
    rintro ⟨rfl, hs⟩
    rw [h2 rfl] at hs
    exact absurd hs (by simp)
  simp [parseLoop, h1, h2']

theorem parseLoop_append_key (c : Char) (key val : List Char) (inS : Bool) (rest : List Char)
    (h1 : c ≠ '"') (h2 : c = '\n' → inS = true) (h3 : c ≠ ' ') :
    parseLoop key val false inS (c :: rest) = parseLoop (key ++ [c]) val false inS rest := by
  have h2' : ¬(c = '\n' ∧ inS = false) := by
    rintro ⟨rfl, hs⟩
    rw [h2 rfl] at hs
    exact absurd hs (by simp)
  simp [parseLoop, h1, h2', h3]

/-! ## Phase lemmas: how the loop consumes a clean key, a value, a quoted value -/

theorem parseLoop_keyPhase (k : List Char) (h : ∀ c ∈ k, c ≠ ' ' ∧ c ≠ '"' ∧ c ≠ '\n') :
    ∀ (s key val : List Char) (inS : Bool),
      parseLoop key val false inS (k ++ s) = parseLoop (key ++ k) val false inS s := by
  induction k with
  | nil => intro s key val inS; simp
  | cons c k ih =>
    intro s key val inS
    obtain ⟨hsp, hq, hn⟩ := h c (List.mem_cons_self c k)
    have hrest : ∀ c ∈ k, c ≠ ' ' ∧ c ≠ '"' ∧ c ≠ '\n' :=
      fun c hc => h c (List.mem_cons_of_mem _ hc)
    rw [List.cons_append, parseLoop_append_key c key val inS (k ++ s) hq
      (fun hc => absurd hc hn) hsp, ih hrest]
    simp

theorem parseLoop_valPhase (w : List Char) (inS : Bool)
    (h : ∀ c ∈ w, c ≠ '"' ∧ (c = '\n' → inS = true)) :
    ∀ (s key val : List Char),
      parseLoop key val true inS (w ++ s) = parseLoop key (val ++ w) true inS s := by
  induction w with
  | nil => intro s key val; simp
  | cons c w ih =>
    intro s key val
    obtain ⟨hq, hn⟩ := h c (List.mem_cons_self c w)
    have hrest : ∀ c ∈ w, c ≠ '"' ∧ (c = '\n' → inS = true) :=
      fun c hc => h c (List.mem_cons_of_mem _ hc)
    rw [List.cons_append, parseLoop_append_val c key val inS (w ++ s) hq hn, ih hrest]
    simp

/-! ## Round-trip machinery -/

theorem specReconstruct_cons (pair : Varbind) (rest : List Varbind) :
    specReconstruct (pair :: rest) =
      pair.key ++ ' ' :: (pair.value ++ '\n' :: specReconstruct rest) := by
  simp [specReconstruct]

theorem parseLoop_reconstruct (L : List Varbind) (h : ∀ p ∈ L, wellFormedPair p) :
    parseLoop [] [] false false (specReconstruct L) = L := by
  induction L with
  | nil => rfl
  | cons pair rest ih =>
    obtain ⟨-, hkey, hval⟩ := h pair (List.mem_cons_self pair rest)
    have hvalPhase : ∀ c ∈ pair.value, c ≠ '"' ∧ (c = '\n' → false = true) :=
      fun c hc => ⟨(hval c hc).1, fun hn => absurd hn (hval c hc).2⟩
    rw [specReconstruct_cons, parseLoop_keyPhase pair.key hkey, List.nil_append,
      parseLoop_space, parseLoop_valPhase pair.value false hvalPhase, List.nil_append,
      parseLoop_newline, ih (fun p hp => h p (List.mem_cons_of_mem _ hp))]

/-! ## No pair is emitted without a newline -/

theorem parseLoop_of_no_newline (t : List Char) (h : '\n' ∉ t) :
    ∀ (key val : List Char) (inV inS : Bool), parseLoop key val inV inS t = [] := by
  induction t with
  | nil => intro key val inV inS; rfl
  | cons c rest ih =>
    intro key val inV inS
    have hc : c ≠ '\n' := fun hc => h (hc ▸ List.mem_cons_self c rest)
    have hrest : '\n' ∉ rest := fun hm => h (List.mem_cons_of_mem _ hm)
    simp only [parseLoop]
    split_ifs with h1 h2 h3 h4
    · exact ih hrest key val inV (!inS)
    · exact absurd h2.1 hc
    · exact ih hrest key val true inS
    · exact ih hrest key (val ++ [c]) inV inS
    · exact ih hrest (key ++ [c]) val inV inS

theorem parseLoop_append_no_newline (s t : List Char) (h : '\n' ∉ t) :
    ∀ (key val : List Char) (inV inS : Bool),
      parseLoop key val inV inS (s ++ t) = parseLoop key val inV inS s := by
  induction s with
  | nil =>
    intro key val inV inS
    rw [List.nil_append, parseLoop_of_no_newline t h]
    rfl
  | cons c rest ih =>
    intro key val inV inS
    rw [List.cons_append]
    simp only [parseLoop]
    split_ifs with h1 h2 h3 h4
    · exact ih key val inV (!inS)
    · rw [ih [] [] false inS]
    · exact ih key val true inS
    · exact ih key (val ++ [c]) inV inS
    · exact ih (key ++ [c]) val inV inS

/-! ## One pair per newline consumed outside quoted mode -/

theorem parseLoop_length_eq_count (s : List Char) :
    ∀ (key val : List Char) (inV inS : Bool),
      (parseLoop key val inV inS s).length = specUnquotedNewlineCount inS s := by
  induction s with
  | nil => intro key val inV inS; rfl
  | cons c rest ih =>
    intro key val inV inS
    simp only [parseLoop, specUnquotedNewlineCount]
    split_ifs with h1 h2 h3 h4
    · exact ih key val inV (!inS)
    · rw [List.length_cons, ih [] [] false inS, Nat.add_comm]
    · exact ih key val true inS
    · exact ih key (val ++ [c]) inV inS
    · exact ih (key ++ [c]) val inV inS

/-! ## No double quote ever reaches an emitted key or value -/

theorem parseLoop_quote_free (s : List Char) :
    ∀ (key val : List Char) (inV inS : Bool), '"' ∉ key → '"' ∉ val →
      ∀ p ∈ parseLoop key val inV inS s, '"' ∉ p.key ∧ '"' ∉ p.value := by
  induction s with
  | nil => intro key val inV inS _ _ p hp; exact absurd hp (List.not_mem_nil p)
  | cons c rest ih =>
    intro key val inV inS hkey hval p hp
    rw [parseLoop] at hp
    split_ifs at hp with h1 h2 h3 h4
    · exact ih key val inV (!inS) hkey hval p hp
    · rcases List.mem_cons.mp hp with rfl | hp'
      · exact ⟨hkey, hval⟩
      · exact ih [] [] false inS (List.not_mem_nil '"') (List.not_mem_nil '"') p hp'
    · exact ih key val true inS hkey hval p hp
    · have hval' : '"' ∉ val ++ [c] := by
        intro hm
        rcases List.mem_append.mp hm with hm' | hm'
        · exact hval hm'
        · exact h1 (List.mem_singleton.mp hm').symm
      exact ih key (val ++ [c]) inV inS hkey hval' p hp
    · have hkey' : '"' ∉ key ++ [c] := by
        intro hm
        rcases List.mem_append.mp hm with hm' | hm'
        · exact hkey hm'
        · exact h1 (List.mem_singleton.mp hm').symm
      exact ih (key ++ [c]) val inV inS hkey' hval p hp

/-! ## Translation lemmas -/

theorem translateKey_label_or_id (k : List Char) :
    translateKey k = k ∨ translateKey k ∈ keyLabels := by
  unfold translateKey
  split_ifs <;> simp [keyLabels]

theorem translateValue_label_or_id (v : List Char) :
    translateValue v = v ∨ translateValue v ∈ valueLabels := by
  unfold translateValue
  split_ifs <;> simp [valueLabels]

theorem translateKey_idem (k : List Char) : translateKey (translateKey k) = translateKey k := by
  rcases translateKey_label_or_id k with h | h
  · rw [h, h]
  · simp only [keyLabels, List.mem_cons, List.not_mem_nil, or_false] at h
    rcases h with h | h | h | h | h | h | h | h <;> rw [h] <;> decide

theorem translateValue_idem (v : List Char) :
    translateValue (translateValue v) = translateValue v := by
  rcases translateValue_label_or_id v with h | h
  · rw [h, h]
  · simp only [valueLabels, List.mem_cons, List.not_mem_nil, or_false] at h
    rcases h with h | h | h | h | h <;> rw [h] <;> decide

theorem translateKey_no_match (k : List Char)
    (h : ∀ p ∈ keyRuleOids, List.isPrefixOf p k = false) : translateKey k = k := by
  have n : ∀ p ∈ keyRuleOids, ¬ (List.isPrefixOf p k = true) := by
    intro p hp hq
    rw [h p hp] at hq
    exact absurd hq (by simp)
  unfold translateKey
  rw [if_neg (n _ (by simp [keyRuleOids])), if_neg (n _ (by simp [keyRuleOids])),
    if_neg (n _ (by simp [keyRuleOids])), if_neg (n _ (by simp [keyRuleOids])),
    if_neg (n _ (by simp [keyRuleOids])), if_neg (n _ (by simp [keyRuleOids])),
    if_neg (n _ (by simp [keyRuleOids])), if_neg (n _ (by simp [keyRuleOids]))]

theorem translateValue_no_match (v : List Char)
    (h : ∀ p ∈ valueRuleOids, List.isPrefixOf p v = false) : translateValue v = v := by
  have n : ∀ p ∈ valueRuleOids, ¬ (List.isPrefixOf p v = true) := by
    intro p hp hq
    rw [h p hp] at hq
    exact absurd hq (by simp)
  unfold translateValue
  rw [if_neg (n _ (by simp [valueRuleOids])), if_neg (n _ (by simp [valueRuleOids])),
    if_neg (n _ (by simp [valueRuleOids])), if_neg (n _ (by simp [valueRuleOids])),
    if_neg (n _ (by simp [valueRuleOids]))]

/-! ## Claim theorems -/

/-- C1: Tokenizer round-trip. For every input consisting only of
well-formed `key value\n` lines (key non-empty, without spaces, with no
double quote anywhere in the line), concatenating key, one space, value
and a newline for each pair produced by `parseVarbinds`, in order,
reproduces the input exactly. -/
theorem tokenizer_round_trip (input : List Char) (L : List Varbind)
    (hwf : ∀ p ∈ L, wellFormedPair p) (hin : input = specReconstruct L) :
    specReconstruct (parseVarbinds input) = input := by
  subst hin
  rw [parseVarbinds, parseLoop_reconstruct L hwf]

theorem tokenizer_round_trip_witness :
    specReconstruct (parseVarbinds "k v\n".toList) = "k v\n".toList :=
  tokenizer_round_trip _ [{ key := "k".toList, value := "v".toList }] (by decide) (by decide)

/-- C2: End-to-end scenario: the single line
`.1.3.6.1.6.3.1.1.4.1.0 .1.3.6.1.6.3.1.1.5.3` followed by a newline
tokenizes to exactly one varbind, translated to key `Type` and value
`linkDown`. -/
theorem linkDown_scenario :
    (parseVarbinds ".1.3.6.1.6.3.1.1.4.1.0 .1.3.6.1.6.3.1.1.5.3\n".toList).map
        translateTrapVarbind =
      [{ key := "Type".toList, value := "linkDown".toList }] := by
  decide

/-- C3: Quoted-value handling. First, no emitted key or value ever
contains a double quote. Second, a value enclosed in quotes — whose body
may contain spaces and newlines — is emitted as one single value with
the quotes stripped and the body preserved verbatim, the enclosed
newlines not terminating the pair. -/
theorem quoted_value_handling :
    (∀ s : List Char, ∀ p ∈ parseVarbinds s, '"' ∉ p.key ∧ '"' ∉ p.value) ∧
    (∀ key w rest : List Char,
      (∀ c ∈ key, c ≠ ' ' ∧ c ≠ '"' ∧ c ≠ '\n') → (∀ c ∈ w, c ≠ '"') →
      parseVarbinds (key ++ (' ' :: '"' :: (w ++ ('"' :: '\n' :: rest)))) =
        { key := key, value := w } :: parseVarbinds rest) := by
  constructor
  · intro s p hp
    exact parseLoop_quote_free s [] [] false false (List.not_mem_nil _) (List.not_mem_nil _) p hp
  · intro key w rest hkey hw
    have hwPhase : ∀ c ∈ w, c ≠ '"' ∧ (c = '\n' → true = true) :=
      fun c hc => ⟨hw c hc, fun _ => rfl⟩
    rw [parseVarbinds, parseLoop_keyPhase key hkey, List.nil_append, parseLoop_space,
      parseLoop_quote, Bool.not_false, parseLoop_valPhase w true hwPhase, List.nil_append,
      parseLoop_quote, Bool.not_true, parseLoop_newline, parseVarbinds]

theorem quoted_value_handling_witness :
    parseVarbinds (['a'] ++ (' ' :: '"' :: (['b', '\n', 'c'] ++ ('"' :: '\n' :: [])))) =
      { key := ['a'], value := ['b', '\n', 'c'] } :: parseVarbinds [] :=
  quoted_value_handling.2 ['a'] ['b', '\n', 'c'] [] (by decide) (by decide)

/-- C4: Trailing-pair drop. `parseVarbinds` emits exactly one pair per
newline consumed outside quoted mode, and appending a trailing partial
line (no newline) to an input with balanced quotes leaves the result
unchanged: the final unterminated line contributes no pair. -/
theorem pair_per_unquoted_newline :
    (∀ s : List Char, (parseVarbinds s).length = specUnquotedNewlineCount false s) ∧
    (∀ s t : List Char, '\n' ∉ t → s.count '"' % 2 = 0 →
      parseVarbinds (s ++ t) = parseVarbinds s) := by
  constructor
  · intro s
    exact parseLoop_length_eq_count s [] [] false false
  · intro s t hn _
    exact parseLoop_append_no_newline s t hn [] [] false false

theorem pair_per_unquoted_newline_witness :
    (parseVarbinds "a b\n".toList).length = specUnquotedNewlineCount false "a b\n".toList ∧
    parseVarbinds ("a b\n".toList ++ "c".toList) = parseVarbinds "a b\n".toList :=
  ⟨pair_per_unquoted_newline.1 _, pair_per_unquoted_newline.2 _ _ (by decide) (by decide)⟩

/-- C5: Translation idempotence and pass-through. Applying
`translateTrapVarbind` twice equals applying it once; no semantic key
label or enumerated value label matches any OID-prefix rule; and a
varbind matching no key rule and no value rule passes through
unchanged. -/
theorem translate_idempotent_passthrough :
    (∀ v : Varbind, translateTrapVarbind (translateTrapVarbind v) = translateTrapVarbind v) ∧
    (∀ l ∈ keyLabels, ∀ p ∈ keyRuleOids, List.isPrefixOf p l = false) ∧
    (∀ l ∈ valueLabels, ∀ p ∈ valueRuleOids, List.isPrefixOf p l = false) ∧
    (∀ v : Varbind, (∀ p ∈ keyRuleOids, List.isPrefixOf p v.key = false) →
      (∀ p ∈ valueRuleOids, List.isPrefixOf p v.value = false) → translateTrapVarbind v = v) := by
  refine ⟨?_, by decide, by decide, ?_⟩
  · intro v
    simp [translateTrapVarbind, translateKey_idem, translateValue_idem]
  · intro v hk hv
    simp [translateTrapVarbind, translateKey_no_match v.key hk, translateValue_no_match v.value hv]

theorem translate_idempotent_passthrough_witness :
    translateTrapVarbind { key := "foo".toList, value := "bar".toList } =
      { key := "foo".toList, value := "bar".toList } :=
  translate_idempotent_passthrough.2.2.2 _ (by decide) (by decide)

/-- C9: Rate clamp. Modelled from the spec (section 4.4): whenever the
current counter is below the previous one and the elapsed time is
positive, the computed rate is exactly zero, never negative. -/
theorem rate_clamped_to_zero (current previous : Nat) (elapsedSeconds : ℚ)
    (hlt : current < previous) (hpos : 0 < elapsedSeconds) :
    computeRate current previous elapsedSeconds = 0 := by
  unfold computeRate
  have hneg : (((current : ℤ) - (previous : ℤ) : ℤ) : ℚ) < 0 := by
    have hz : (current : ℤ) < (previous : ℤ) := by exact_mod_cast hlt
    have h0 : ((current : ℤ) - (previous : ℤ)) < 0 := sub_neg.mpr hz
    exact_mod_cast h0
  exact max_eq_left (div_neg_of_neg_of_pos hneg hpos).le

theorem rate_clamped_to_zero_witness : computeRate 100 500 10 = 0 :=
  rate_clamped_to_zero 100 500 10 (by norm_num) (by norm_num)

/-- C10: Quoting does not protect the key/value separator. A space met
while the quote-toggle state is open but before any separator still
flips the key-to-value transition, because the space rule tests only
`inValue`; a quoted key containing a space is therefore split at that
space, the part after it (with the rest of the line) becoming the
value. -/
theorem quoted_space_splits_key (k1 k2 v rest : List Char)
    (h1 : ∀ c ∈ k1, c ≠ ' ' ∧ c ≠ '"' ∧ c ≠ '\n')
    (h2 : ∀ c ∈ k2, c ≠ '"' ∧ c ≠ '\n')
    (h3 : ∀ c ∈ v, c ≠ '"' ∧ c ≠ '\n') :
    parseVarbinds ('"' :: (k1 ++ (' ' :: (k2 ++ ('"' :: ' ' :: (v ++ ('\n' :: rest))))))) =
      { key := k1, value := k2 ++ ' ' :: v } :: parseVarbinds rest := by
  have h2Phase : ∀ c ∈ k2, c ≠ '"' ∧ (c = '\n' → true = true) :=
    fun c hc => ⟨(h2 c hc).1, fun _ => rfl⟩
  have h3Phase : ∀ c ∈ v, c ≠ '"' ∧ (c = '\n' → false = true) :=
    fun c hc => ⟨(h3 c hc).1, fun hn => absurd hn (h3 c hc).2⟩
  rw [parseVarbinds, parseLoop_quote, Bool.not_false,
    parseLoop_keyPhase k1 h1, List.nil_append, parseLoop_space,
    parseLoop_valPhase k2 true h2Phase, List.nil_append, parseLoop_quote, Bool.not_true,
    parseLoop_append_val ' ' k1 k2 false (v ++ ('\n' :: rest)) (by decide) (by decide),
    parseLoop_valPhase v false h3Phase, parseLoop_newline, parseVarbinds]
  simp

theorem quoted_space_splits_key_witness :
    parseVarbinds ('"' :: (['a'] ++ (' ' :: (['b'] ++ ('"' :: ' ' :: (['c'] ++ ('\n' :: []))))))) =
      { key := ['a'], value := ['b'] ++ ' ' :: ['c'] } :: parseVarbinds [] :=
  quoted_space_splits_key ['a'] ['b'] ['c'] [] (by decide) (by decide) (by decide)

/-- C6: Enrichment skip. When at least one of the keys `Address`,
`Community`, `Interface#` is absent from the varbind list,
`getAdditionalInfo` succeeds with the list unchanged; the conclusion
holds for every collaborator `snmpGet`, so no remote SNMP call can
influence (or be required for) the outcome. -/
theorem enrichment_skip {ε : Type} (varbinds : List Varbind)
    (h : varbindByKey varbinds "Address".toList = none ∨
      varbindByKey varbinds "Community".toList = none ∨
      varbindByKey varbinds "Interface#".toList = none) :
    ∀ snmpGet : List Char → List Char → List Char → Except ε (List Char),
      getAdditionalInfo snmpGet varbinds = Except.ok varbinds := by
  intro snmpGet
  unfold getAdditionalInfo
  rcases hA : varbindByKey varbinds "Address".toList with - | a <;>
    rcases hC : varbindByKey varbinds "Community".toList with - | c <;>
      rcases hI : varbindByKey varbinds "Interface#".toList with - | i <;>
        simp_all

theorem enrichment_skip_witness :
    getAdditionalInfo (fun _ _ _ => (Except.error () : Except Unit (List Char)))
      [{ key := "Type".toList, value := "linkDown".toList }] =
      Except.ok [{ key := "Type".toList, value := "linkDown".toList }] :=
  enrichment_skip _ (Or.inl (by decide)) _

/-- A varbind list carrying the three keys the enrichment step needs,
used to exercise `getAdditionalInfo` on its appending path. -/
def exampleEnrichVarbinds : List Varbind :=
  [{ key := "Address".toList, value := "10.0.1.109".toList },
   { key := "Community".toList, value := "public".toList },
   { key := "Interface#".toList, value := "63".toList }]

/-- C7 counterexample: the appended varbind's value is the resolved name
verbatim, not the name with control characters stripped. With a
collaborator resolving the name to `['\x01', 'e']`, the list actually
gains `{ key := "Interface", value := ['\x01', 'e'] }`, and the result
differs from the one the claim predicts (the control character
removed). -/
theorem enrichment_no_control_strip :
    getAdditionalInfo (fun _ _ _ => (Except.ok ['\x01', 'e'] : Except Unit (List Char)))
        exampleEnrichVarbinds =
      Except.ok (exampleEnrichVarbinds ++ [{ key := "Interface".toList, value := ['\x01', 'e'] }]) ∧
    getAdditionalInfo (fun _ _ _ => (Except.ok ['\x01', 'e'] : Except Unit (List Char)))
        exampleEnrichVarbinds ≠
      Except.ok (exampleEnrichVarbinds ++
        [{ key := "Interface".toList, value := stripControlChars ['\x01', 'e'] }]) :=
  ⟨rfl, fun h => absurd (Except.ok.inj h) (by decide)⟩

/-- C7 (amended): Enrichment append. When all three of `Address`,
`Community`, `Interface#` are present and the remote lookup succeeds
with some name, `getAdditionalInfo` appends exactly one varbind with key
`Interface` and the resolved name, verbatim, as its value, leaving all
pre-existing varbinds unchanged. -/
theorem enrichment_append (ε : Type) (varbinds : List Varbind)
    (snmpGet : List Char → List Char → List Char → Except ε (List Char))
    (a c i : Varbind) (name : List Char)
    (hA : varbindByKey varbinds "Address".toList = some a)
    (hC : varbindByKey varbinds "Community".toList = some c)
    (hI : varbindByKey varbinds "Interface#".toList = some i)
    (hG : snmpGet a.value c.value (OID_NIC_NAMES ++ '.' :: i.value) = Except.ok name) :
    getAdditionalInfo snmpGet varbinds =
      Except.ok (varbinds ++ [{ key := "Interface".toList, value := name }]) := by
  unfold getAdditionalInfo
  rw [hA, hC, hI]
  simp [hG]

theorem enrichment_append_witness :
    getAdditionalInfo (fun _ _ _ => (Except.ok "eth0".toList : Except Unit (List Char)))
        exampleEnrichVarbinds =
      Except.ok (exampleEnrichVarbinds ++
        [{ key := "Interface".toList, value := "eth0".toList }]) :=
  enrichment_append Unit exampleEnrichVarbinds _
    { key := "Address".toList, value := "10.0.1.109".toList }
    { key := "Community".toList, value := "public".toList }
    { key := "Interface#".toList, value := "63".toList }
    "eth0".toList (by decide) (by decide) (by decide) rfl

/-- C8 counterexample: on the empty trap body the parsed list has no
`Type` varbind, and the submission step dereferences the result of
`varbindByKey`, which is `undefined`; the pipeline raises a `TypeError`
instead of completing. -/
theorem pipeline_raises_on_missing_type :
    trapPipeline "host.example.com".toList [] = Except.error JsError.typeError :=
  rfl

/-- C8 (amended): The tokenizer, the translation and the formatting are
total, and the full pipeline completes without raising whenever the
translated varbind list carries a `Type` varbind and — when that
varbind's value is `linkDown` or `linkUp` — also an `Interface`
varbind; a list lacking those raises a `TypeError` in the submission
step. -/
theorem pipeline_no_raise_with_type (hostname trapBody : List Char) (t : Varbind)
    (hT : varbindByKey ((parseVarbinds trapBody).map translateTrapVarbind) "Type".toList =
      some t)
    (hI : t.value = "linkDown".toList ∨ t.value = "linkUp".toList →
      (varbindByKey ((parseVarbinds trapBody).map translateTrapVarbind)
        "Interface".toList).isSome = true) :
    ∃ result, trapPipeline hostname trapBody = Except.ok result := by
  unfold trapPipeline submitCheckResult
  simp only [hT]
  by_cases hd : t.value = "linkDown".toList
  · obtain ⟨vi, hvi⟩ := Option.isSome_iff_exists.mp (hI (Or.inl hd))
    rw [if_pos hd, hvi]
    exact ⟨_, rfl⟩
  · by_cases hu : t.value = "linkUp".toList
    · obtain ⟨vi, hvi⟩ := Option.isSome_iff_exists.mp (hI (Or.inr hu))
      rw [if_neg hd, if_pos hu, hvi]
      exact ⟨_, rfl⟩
    · rw [if_neg hd, if_neg hu]
      exact ⟨_, rfl⟩

theorem pipeline_no_raise_with_type_witness :
    ∃ result, trapPipeline "host.example.com".toList
      ".1.3.6.1.6.3.1.1.4.1.0 .1.3.6.1.6.3.1.1.5.1\n".toList = Except.ok result :=
  pipeline_no_raise_with_type _ _ { key := "Type".toList, value := "coldStart".toList }
    (by decide) (by decide)

end NodeNagios
